import Mathlib

/-
Verification of the account pool subsystem of qwen2api-docker.

The development shallowly embeds the JavaScript sources:
  src/utils/account-rotator.js  (AccountRotator)
  src/utils/sqlite.js           (saveDatabase / startAutoSave, TokenManager)
  src/utils/account.js          (Account manager: addAccount, _validateAndCleanTokens)
  the config hot-reload manager (ConfigReloader.reload)

JavaScript Map objects are modelled as association lists (List (String × α));
Map.set updates in place keeping insertion order, Map.delete removes the key.
Date.now() is passed in explicitly as a Nat parameter.  The external jwt-decode
library is a parameter (String → Option JwtClaims); a decode that throws is
modelled as none.
-/

/-- Lookup in an association list, the model of JS Map.get / object indexing. -/
def alookup {α : Type} : List (String × α) → String → Option α
  | [], _ => none
  | p :: rest, k => if p.1 = k then some p.2 else alookup rest k

/-- Update in an association list, the model of JS Map.set (insertion order kept). -/
def aset {α : Type} : List (String × α) → String → α → List (String × α)
  | [], k, v => [(k, v)]
  | p :: rest, k, v => if p.1 = k then (k, v) :: rest else p :: aset rest k v

/-- Removal from an association list, the model of JS Map.delete. -/
def aerase {α : Type} : List (String × α) → String → List (String × α)
  | [], _ => []
  | p :: rest, k => if p.1 = k then aerase rest k else p :: aerase rest k

theorem alookup_aset_self {α : Type} (m : List (String × α)) (k : String) (v : α) :
    alookup (aset m k v) k = some v := by
  induction m with
  | nil => simp [aset, alookup]
  | cons p rest ih =>
    by_cases h : p.1 = k
    · simp [aset, alookup, h]
    · simp [aset, alookup, h, ih]

theorem alookup_aset_ne {α : Type} (m : List (String × α)) (k k2 : String) (v : α)
    (h : k ≠ k2) : alookup (aset m k v) k2 = alookup m k2 := by
  induction m with
  | nil => simp [aset, alookup, h]
  | cons p rest ih =>
    by_cases hp : p.1 = k
    · simp [aset, alookup, hp, h]
    · by_cases hp2 : p.1 = k2
      · simp [aset, alookup, hp, hp2, Ne.symm h]
      · simp [aset, alookup, hp, hp2, ih]

theorem alookup_aerase_self {α : Type} (m : List (String × α)) (k : String) :
    alookup (aerase m k) k = none := by
  induction m with
  | nil => simp [aerase, alookup]
  | cons p rest ih =>
    by_cases h : p.1 = k
    · simp [aerase, h, ih]
    · simp [aerase, alookup, h, ih]

theorem alookup_aerase_ne {α : Type} (m : List (String × α)) (k k2 : String)
    (h : k ≠ k2) : alookup (aerase m k) k2 = alookup m k2 := by
  induction m with
  | nil => simp [aerase]
  | cons p rest ih =>
    by_cases hp : p.1 = k
    · simp [aerase, alookup, hp, ih, h]
    · by_cases hp2 : p.1 = k2
      · simp [aerase, alookup, hp, hp2, Ne.symm h]
      · simp [aerase, alookup, hp, hp2, ih]

/-
Account objects.  The rotator reads only accountId and token; the pool manager
also reads cookie and expires.  token = "" models a JS falsy token (missing or
cleared); expires = none models an undefined expires field.
-/
structure Account where
  accountId : String
  cookie : String
  token : String
  expires : Option Nat
deriving DecidableEq

/-- AccountRotator state: src/utils/account-rotator.js constructor fields. -/
structure RotState where
  accounts : List Account
  currentIndex : Nat
  lastUsedTimes : List (String × Nat)
  failureCounts : List (String × Nat)
deriving DecidableEq

/-- this.maxFailures = 3 -/
def maxFailures : Nat := 3

/-- this.cooldownPeriod = 5 * 60 * 1000 (milliseconds) -/
def cooldownPeriod : Nat := 5 * 60 * 1000

/-- The JS guard `lastUsed && Date.now() - lastUsed < this.cooldownPeriod`:
a missing entry (none) and the falsy timestamp 0 both make it false. -/
def cooldownActive (now : Nat) (lastUsed : Option Nat) : Bool :=
  match lastUsed with
  | some t => decide (t ≠ 0 ∧ now - t < cooldownPeriod)
  | none => false

/-- _isAccountAvailable(account): returns the boolean and the possibly mutated
state (the method deletes the failureCounts entry when the cooldown is over). -/
def isAccountAvailable (s : RotState) (now : Nat) (a : Account) : Bool × RotState :=
  if a.token = "" then (false, s)
  else
    let failures := (alookup s.failureCounts a.accountId).getD 0
    if maxFailures ≤ failures then
      if cooldownActive now (alookup s.lastUsedTimes a.accountId) then
        (false, s)
      else
        (true, { s with failureCounts := aerase s.failureCounts a.accountId })
    else (true, s)

/-- _getAvailableAccounts: this.accounts.filter(a => this._isAccountAvailable(a)),
threading the state mutations of each predicate call left to right. -/
def getAvailableAccountsAux (now : Nat) : List Account → RotState → List Account × RotState
  | [], st => ([], st)
  | a :: rest, st =>
    let r := isAccountAvailable st now a
    let rec' := getAvailableAccountsAux now rest r.2
    (if r.1 then a :: rec'.1 else rec'.1, rec'.2)

def getAvailableAccounts (s : RotState) (now : Nat) : List Account × RotState :=
  getAvailableAccountsAux now s.accounts s

/-- _recordUsage: this.lastUsedTimes.set(accountId, Date.now()) -/
def recordUsage (s : RotState) (accountId : String) (now : Nat) : RotState :=
  { s with lastUsedTimes := aset s.lastUsedTimes accountId now }

/-- lastUsedTimes.get(id) || 0, as read by _selectLeastUsedAccount. -/
def lastUsedVal (lu : List (String × Nat)) (a : Account) : Nat :=
  (alookup lu a.accountId).getD 0

/-- _selectLeastUsedAccount: length-1 shortcut, otherwise reduce keeping the
current element only when strictly older (ties keep the earlier list entry). -/
def selectLeastUsed (lu : List (String × Nat)) : List Account → Option Account
  | [] => none
  | a :: rest =>
    some (rest.foldl (fun least current =>
      if lastUsedVal lu current < lastUsedVal lu least then current else least) a)

def selectLeastUsedAccount (s : RotState) (l : List Account) : Option Account :=
  selectLeastUsed s.lastUsedTimes l

/-- the recursive body of _getTokenByRoundRobin after the initial wrap:
the argument list is the suffix this.accounts.drop(currentIndex).  The source
recursion guard `if (this.currentIndex < this.accounts.length) recurse` is the
rest-nonempty test; the empty-list head case is the undefined-account read
that occurs for an empty account list. -/
def rrGo (now : Nat) : List Account → List (String × Nat) → Nat →
    Option Account × List (String × Nat) × Nat
  | [], lu, i => (none, lu, i + 1)
  | a :: rest, lu, i =>
    if a.token ≠ "" then (some a, aset lu a.accountId now, i + 1)
    else if rest.isEmpty then (none, lu, i + 1)
    else rrGo now rest lu (i + 1)

/-- _getTokenByRoundRobin, returning the selected account (whose token the
source returns) together with the mutated state. -/
def getTokenByRoundRobinSel (s : RotState) (now : Nat) : Option Account × RotState :=
  let start := if s.accounts.length ≤ s.currentIndex then 0 else s.currentIndex
  let r := rrGo now (s.accounts.drop start) s.lastUsedTimes start
  (r.1, { s with lastUsedTimes := r.2.1, currentIndex := r.2.2 })

/-- getNextToken, but returning the account whose token is returned;
getNextToken below projects out the token field. -/
def getNextSelected (s : RotState) (now : Nat) : Option Account × RotState :=
  if s.accounts.length = 0 then (none, s)
  else
    let avail := (getAvailableAccounts s now).1
    let s1 := (getAvailableAccounts s now).2
    if avail.length = 0 then getTokenByRoundRobinSel s1 now
    else
      match selectLeastUsedAccount s1 avail with
      | some sel => (some sel, recordUsage s1 sel.accountId now)
      | none => (none, s1)

/-- getNextToken(): the token of the selected account, or null. -/
def getNextToken (s : RotState) (now : Nat) : Option String × RotState :=
  let r := getNextSelected s now
  (r.1.map (fun a => a.token), r.2)

/-- getTokenByAccountId(accountId) -/
def getTokenByAccountId (s : RotState) (now : Nat) (accountId : String) :
    Option String × RotState :=
  match s.accounts.find? (fun a => a.accountId == accountId) with
  | none => (none, s)
  | some a =>
    let r := isAccountAvailable s now a
    if r.1 then (some a.token, recordUsage r.2 accountId now) else (none, r.2)

/-- _cleanupRecords: drop bookkeeping entries whose id is not in the account list. -/
def cleanupRecords (s : RotState) : RotState :=
  let ids := s.accounts.map (fun a => a.accountId)
  { s with
    failureCounts := s.failureCounts.filter (fun p => ids.contains p.1),
    lastUsedTimes := s.lastUsedTimes.filter (fun p => ids.contains p.1) }

/-- the body of setAccounts on an actual array argument. -/
def setAccountsList (s : RotState) (accounts : List Account) : RotState :=
  cleanupRecords { s with accounts := accounts, currentIndex := 0 }

/-- setAccounts(accounts): none models a non-array argument, on which the
source throws. -/
def setAccounts (s : RotState) (input : Option (List Account)) : Except String RotState :=
  match input with
  | none => Except.error "accounts must be an array"
  | some accounts => Except.ok (setAccountsList s accounts)

/-- recordFailure(accountId) -/
def recordFailure (s : RotState) (accountId : String) : RotState :=
  { s with
    failureCounts := aset s.failureCounts accountId ((alookup s.failureCounts accountId).getD 0 + 1) }

/-- resetFailures(accountId) -/
def resetFailures (s : RotState) (accountId : String) : RotState :=
  { s with failureCounts := aerase s.failureCounts accountId }

/-- one entry of getStats().usageStats -/
structure AccountStat where
  failures : Nat
  lastUsed : Option Nat
  available : Bool
deriving DecidableEq

structure RotStats where
  total : Nat
  available : Nat
  inCooldown : Nat
  currentIndex : Nat
  usageStats : List (String × AccountStat)
deriving DecidableEq

/-- the forEach of getStats building usageStats: the failures and lastUsed
fields are read before the availability call of the same iteration, and each
availability call may delete a failureCounts entry. -/
def getStatsAux (now : Nat) : List Account → RotState →
    List (String × AccountStat) × RotState
  | [], st => ([], st)
  | a :: rest, st =>
    let f := (alookup st.failureCounts a.accountId).getD 0
    let lu := alookup st.lastUsedTimes a.accountId
    let r := isAccountAvailable st now a
    let rec' := getStatsAux now rest r.2
    ((a.accountId, ⟨f, lu, r.1⟩) :: rec'.1, rec'.2)

/-- getStats() -/
def getStats (s : RotState) (now : Nat) : RotStats × RotState :=
  let total := s.accounts.length
  let availR := getAvailableAccounts s now
  let statsR := getStatsAux now availR.2.accounts availR.2
  ({ total := total,
     available := availR.1.length,
     inCooldown := total - availR.1.length,
     currentIndex := statsR.2.currentIndex,
     usageStats := statsR.1 }, statsR.2)

example : (getNextToken ⟨[⟨"a", "", "ta", none⟩, ⟨"b", "", "tb", none⟩], 0, [], []⟩ 10).1
    = some "ta" := by decide

example : (getNextToken ((getNextToken ⟨[⟨"a", "", "ta", none⟩, ⟨"b", "", "tb", none⟩], 0, [], []⟩ 10).2) 20).1
    = some "tb" := by decide

/-
Token Codec: the TokenManager class bundled in src/utils/sqlite.js.
-/

/-- decoded JWT claims as used by the source: id, sub (strings, possibly
absent or empty) and exp (absent models an undefined exp field). -/
structure JwtClaims where
  id : Option String
  sub : Option String
  exp : Option Nat
deriving DecidableEq

/-- the regex match /token=([^;]+)/ over the cookie characters: leftmost
occurrence of "token=" followed by at least one non-semicolon character;
the capture is the maximal run of non-semicolon characters. -/
def extractTokenChars : List Char → Option String
  | [] => none
  | c :: rest =>
    if ("token=".toList).isPrefixOf (c :: rest) then
      if (((c :: rest).drop 6).takeWhile (fun ch => ch ≠ ';')).isEmpty then
        extractTokenChars rest
      else some (String.mk (((c :: rest).drop 6).takeWhile (fun ch => ch ≠ ';')))
    else extractTokenChars rest

/-- extractTokenFromCookie(cookie): null on a falsy cookie or no regex match. -/
def extractTokenFromCookie (cookie : String) : Option String :=
  if cookie = "" then none
  else extractTokenChars cookie.toList

/-- validateToken(token): decode (a throwing decode is none) and reject when
decoded.exp <= now; an undefined exp compares false in JS and so passes. -/
def validateToken (jwtDecode : String → Option JwtClaims) (nowSec : Nat)
    (token : String) : Option JwtClaims :=
  if token = "" then none
  else
    match jwtDecode token with
    | none => none
    | some c =>
      match c.exp with
      | some e => if e ≤ nowSec then none else some c
      | none => some c

/-- decoded.id || decoded.sub, where undefined and "" are both falsy. -/
def firstTruthy (a b : Option String) : Option String :=
  match a with
  | some s =>
    if s ≠ "" then some s
    else match b with
      | some t => if t ≠ "" then some t else none
      | none => none
  | none =>
    match b with
    | some t => if t ≠ "" then some t else none
    | none => none

/-- extractUserIdFromToken(token) -/
def extractUserIdFromToken (jwtDecode : String → Option JwtClaims)
    (token : String) : String :=
  match jwtDecode token with
  | none => "user_" ++ token.take 8
  | some c =>
    match firstTruthy c.id c.sub with
    | none => "user_" ++ token.take 8
    | some u => if 16 < u.length then "user_" ++ u.take 8 else "user_" ++ u

/-- the record returned by extractAccountFromCookie. -/
structure ExtractedAccount where
  accountId : String
  token : String
  expires : Option Nat
deriving DecidableEq

/-- extractAccountFromCookie(cookie) -/
def extractAccountFromCookie (jwtDecode : String → Option JwtClaims)
    (nowSec : Nat) (cookie : String) : Option ExtractedAccount :=
  match extractTokenFromCookie cookie with
  | none => none
  | some token =>
    match validateToken jwtDecode nowSec token with
    | none => none
    | some decoded =>
      some { accountId := extractUserIdFromToken jwtDecode token,
             token := token,
             expires := decoded.exp }

/-
Account Pool Manager: src/utils/account.js.
-/

/-- one durable row as written by sqlite setAccount (INSERT OR REPLACE):
cookie || '', token || '', expires || 0, updated_at = now. -/
structure StoreRecord where
  cookie : String
  token : String
  expires : Nat
  updatedAt : Nat
deriving DecidableEq

/-- the pool manager state relevant to addAccount: the in-memory account list,
the rotator, and the durable store table keyed by accountId. -/
structure ManagerState where
  accountTokens : List Account
  rotator : RotState
  store : List (String × StoreRecord)
deriving DecidableEq

/-- addAccount(accountId, cookie): duplicate id, missing token, or invalid
token fail without any mutation; success appends to memory, upserts the store
row, and re-registers the whole list with the rotator. -/
def addAccount (st : ManagerState) (jwtDecode : String → Option JwtClaims)
    (nowSec : Nat) (accountId cookie : String) : Bool × ManagerState :=
  if (st.accountTokens.find? (fun a => a.accountId == accountId)).isSome then
    (false, st)
  else
    match extractTokenFromCookie cookie with
    | none => (false, st)
    | some token =>
      match validateToken jwtDecode nowSec token with
      | none => (false, st)
      | some decoded =>
        let newAccount : Account :=
          { accountId := accountId, cookie := cookie, token := token,
            expires := decoded.exp }
        let accountTokens := st.accountTokens ++ [newAccount]
        let store := aset st.store accountId
          { cookie := cookie, token := token, expires := decoded.exp.getD 0,
            updatedAt := nowSec }
        (true, { accountTokens := accountTokens,
                 rotator := setAccountsList st.rotator accountTokens,
                 store := store })

/-- the per-account body of _validateAndCleanTokens: every branch keeps the
account (pushed to validAccounts), a usable cookie refreshes token and expires,
every failure branch clears them to "" and 0. -/
def validateAccount (jwtDecode : String → Option JwtClaims) (nowSec : Nat)
    (a : Account) : Account :=
  if a.cookie ≠ "" then
    match extractTokenFromCookie a.cookie with
    | some token =>
      match validateToken jwtDecode nowSec token with
      | some decoded => { a with token := token, expires := decoded.exp }
      | none => { a with token := "", expires := some 0 }
    | none => { a with token := "", expires := some 0 }
  else { a with token := "", expires := some 0 }

/-- _validateAndCleanTokens over the whole list. -/
def validateAndCleanTokens (jwtDecode : String → Option JwtClaims)
    (nowSec : Nat) (accounts : List Account) : List Account :=
  accounts.map (validateAccount jwtDecode nowSec)

/-
Config Reload Watcher: the ConfigReloader class (reload and _parseEnvFile).
-/

/-- whitespace trimming on both ends, the model of String.prototype.trim. -/
def trimChars (l : List Char) : List Char :=
  ((l.dropWhile Char.isWhitespace).reverse.dropWhile Char.isWhitespace).reverse

/-- split a character list on newline characters, the model of split(\x27\n\x27). -/
def splitOnNewline : List Char → List (List Char)
  | [] => [[]]
  | c :: rest =>
    match splitOnNewline rest with
    | [] => [[c]]
    | l :: ls => if c = '\n' then [] :: l :: ls else (c :: l) :: ls

/-- strip one layer of matching surrounding quotes, as in _parseEnvFile. -/
def stripQuotes (v : List Char) : List Char :=
  if (v.head? = some '"' && v.getLast? = some '"') ||
     (v.head? = some '\x27' && v.getLast? = some '\x27') then
    (v.drop 1).dropLast
  else v

/-- one line of _parseEnvFile: skip blank lines and #comments, match
^([^=]+)=(.*)$ (key is the nonempty run before the first equals sign),
trim both sides, strip quotes from the value. -/
def parseEnvLine (line : List Char) : Option (String × String) :=
  let trimmed := trimChars line
  if trimmed.isEmpty || trimmed.head? = some '#' then none
  else
    let keyChars := trimmed.takeWhile (fun ch => ch ≠ '=')
    if keyChars.isEmpty then none
    else
      match trimmed.drop keyChars.length with
      | '=' :: valueChars =>
        some (String.mk (trimChars keyChars),
              String.mk (stripQuotes (trimChars valueChars)))
      | _ => none

/-- _parseEnvFile: later duplicate keys overwrite the value in place, as for a
JS object literal built by assignment. -/
def parseEnvFile (content : String) : List (String × String) :=
  (splitOnNewline content.toList).foldl (fun acc line =>
    match parseEnvLine line with
    | some kv => aset acc kv.1 kv.2
    | none => acc) []

/-- the update loop of reload(): apply each parsed variable that differs from
the current environment and collect the changed keys in order. -/
def applyEnv : List (String × String) → List (String × String) →
    List (String × String) × List String
  | [], env => (env, [])
  | kv :: rest, env =>
    if alookup env kv.1 = some kv.2 then applyEnv rest env
    else
      let r := applyEnv rest (aset env kv.1 kv.2)
      (r.1, kv.1 :: r.2)

/-- observable side effects of reload(), in order. -/
inductive ReloadEvent where
  | clearStore : ReloadEvent
  | runCallbacks : ReloadEvent
deriving DecidableEq

structure ReloadResult where
  changed : Bool
  env : List (String × String)
  events : List ReloadEvent
deriving DecidableEq

/-- ConfigReloader.reload(): missing file or no changed variable return early
with no side effects; a changed QWEN_COOKIES clears the store before the
registered callbacks run; otherwise only the callbacks run. -/
def reloadConfig (envFileExists : Bool) (content : String)
    (env : List (String × String)) : ReloadResult :=
  if envFileExists = false then { changed := false, env := env, events := [] }
  else
    let r := applyEnv (parseEnvFile content) env
    if r.2.length = 0 then { changed := false, env := r.1, events := [] }
    else
      { changed := true,
        env := r.1,
        events := (if r.2.contains "QWEN_COOKIES" then [ReloadEvent.clearStore] else [])
          ++ [ReloadEvent.runCallbacks] }

/-
Durable Store flush: saveDatabase and startAutoSave in src/utils/sqlite.js.
The filesystem is a map from path to file content (the exported database image
is abstracted to a Nat); a crash is modelled by applying only a prefix of the
emitted operation list.
-/

inductive FsOp where
  | writeFile : String → Nat → FsOp
  | rename : String → String → FsOp
deriving DecidableEq

/-- DB_CONFIG.dbPath (relative to the working directory). -/
def dbPath : String := "data/qwen2api.db"

/-- the temporary path `${DB_CONFIG.dbPath}.tmp` used by saveDatabase. -/
def tmpPath : String := dbPath ++ ".tmp"

/-- the filesystem operations of one saveDatabase() call, in program order:
write the exported image to the temp file, then rename it over the db file. -/
def saveDatabaseOps (data : Nat) : List FsOp :=
  [FsOp.writeFile tmpPath data, FsOp.rename tmpPath dbPath]

def applyFsOp (fs : List (String × Nat)) : FsOp → List (String × Nat)
  | FsOp.writeFile p c => aset fs p c
  | FsOp.rename src dst =>
    match alookup fs src with
    | some c => aset (aerase fs src) dst c
    | none => fs

def applyFsOps (fs : List (String × Nat)) (ops : List FsOp) : List (String × Nat) :=
  ops.foldl applyFsOp fs

/-- one tick of the startAutoSave interval: flush only when the dirty flag is
set, and clear the flag afterwards. -/
def autoSaveTick (isDirty : Bool) (data : Nat) : List FsOp × Bool :=
  if isDirty then (saveDatabaseOps data, false) else ([], isDirty)

example : extractTokenFromCookie "ssxmod_itna=1; token=abc.def; x=1" = some "abc.def" := by decide
example : extractTokenFromCookie "token=;token=zz" = some "zz" := by decide
example : parseEnvFile "# c\nA=1\n B = \x22two\x22 \n\nA=3" = [("A", "3"), ("B", "two")] := by decide

/-
Helper lemmas about the rotator.
-/

theorem isAvail_preserve (s : RotState) (now : Nat) (a : Account) :
    (isAccountAvailable s now a).2.accounts = s.accounts ∧
    (isAccountAvailable s now a).2.currentIndex = s.currentIndex ∧
    (isAccountAvailable s now a).2.lastUsedTimes = s.lastUsedTimes := by
  simp only [isAccountAvailable]
  split_ifs <;> simp

theorem isAvail_fc_cases (s : RotState) (now : Nat) (a : Account) :
    (isAccountAvailable s now a).2.failureCounts = s.failureCounts ∨
    (isAccountAvailable s now a).2.failureCounts = aerase s.failureCounts a.accountId := by
  simp only [isAccountAvailable]
  split_ifs <;> simp

theorem isAvail_fc_lookup (s : RotState) (now : Nat) (a : Account) (id : String) :
    alookup (isAccountAvailable s now a).2.failureCounts id = alookup s.failureCounts id ∨
    alookup (isAccountAvailable s now a).2.failureCounts id = none := by
  rcases isAvail_fc_cases s now a with h | h
  · rw [h]; left; rfl
  · rw [h]
    by_cases hid : a.accountId = id
    · right; rw [← hid, alookup_aerase_self]
    · left; exact alookup_aerase_ne _ _ _ hid

theorem isAvail_fc_none (s : RotState) (now : Nat) (a : Account) (id : String)
    (h : alookup s.failureCounts id = none) :
    alookup (isAccountAvailable s now a).2.failureCounts id = none := by
  rcases isAvail_fc_lookup s now a id with h2 | h2
  · rw [h2, h]
  · exact h2

theorem isAvail_fst_iff (s : RotState) (now : Nat) (a : Account) :
    (isAccountAvailable s now a).1 = true ↔
      (a.token ≠ "" ∧ ((alookup s.failureCounts a.accountId).getD 0 < maxFailures ∨
        cooldownActive now (alookup s.lastUsedTimes a.accountId) = false)) := by
  simp only [isAccountAvailable]
  split_ifs with h1 h2 h3 <;> simp_all

theorem isAvail_clear_self (s : RotState) (now : Nat) (a : Account)
    (htok : a.token ≠ "")
    (hf : ∀ v, alookup s.failureCounts a.accountId = some v → maxFailures ≤ v)
    (hcd : cooldownActive now (alookup s.lastUsedTimes a.accountId) = false) :
    alookup (isAccountAvailable s now a).2.failureCounts a.accountId = none := by
  simp only [isAccountAvailable]
  rcases h : alookup s.failureCounts a.accountId with _ | v
  · simp [htok, h, maxFailures]
  · have hv := hf v h
    simp [htok, h, hv, hcd, alookup_aerase_self]

theorem availAux_preserve (now : Nat) :
    ∀ (l : List Account) (st : RotState),
    (getAvailableAccountsAux now l st).2.accounts = st.accounts ∧
    (getAvailableAccountsAux now l st).2.currentIndex = st.currentIndex ∧
    (getAvailableAccountsAux now l st).2.lastUsedTimes = st.lastUsedTimes := by
  intro l
  induction l with
  | nil => intro st; simp [getAvailableAccountsAux]
  | cons a rest ih =>
    intro st
    have h1 := isAvail_preserve st now a
    have h2 := ih (isAccountAvailable st now a).2
    simp only [getAvailableAccountsAux]
    exact ⟨h2.1.trans h1.1, h2.2.1.trans h1.2.1, h2.2.2.trans h1.2.2⟩

theorem availAux_fc_none (now : Nat) :
    ∀ (l : List Account) (st : RotState) (id : String),
    alookup st.failureCounts id = none →
    alookup (getAvailableAccountsAux now l st).2.failureCounts id = none := by
  intro l
  induction l with
  | nil => intro st id h; simpa [getAvailableAccountsAux] using h
  | cons a rest ih =>
    intro st id h
    simp only [getAvailableAccountsAux]
    exact ih _ _ (isAvail_fc_none st now a id h)

theorem availAux_fc_lookup (now : Nat) :
    ∀ (l : List Account) (st : RotState) (id : String),
    alookup (getAvailableAccountsAux now l st).2.failureCounts id = alookup st.failureCounts id ∨
    alookup (getAvailableAccountsAux now l st).2.failureCounts id = none := by
  intro l
  induction l with
  | nil => intro st id; left; simp [getAvailableAccountsAux]
  | cons a rest ih =>
    intro st id
    simp only [getAvailableAccountsAux]
    rcases ih (isAccountAvailable st now a).2 id with h | h
    · rcases isAvail_fc_lookup st now a id with h2 | h2
      · left; rw [h, h2]
      · right; rw [h, h2]
    · right; exact h

theorem availAux_clears (now : Nat) (a : Account) (htok : a.token ≠ "") :
    ∀ (l : List Account) (st : RotState),
    a ∈ l →
    (∀ v, alookup st.failureCounts a.accountId = some v → maxFailures ≤ v) →
    cooldownActive now (alookup st.lastUsedTimes a.accountId) = false →
    alookup (getAvailableAccountsAux now l st).2.failureCounts a.accountId = none := by
  intro l
  induction l with
  | nil => intro st h; simp at h
  | cons b rest ih =>
    intro st hmem hf hcd
    simp only [getAvailableAccountsAux]
    rcases List.mem_cons.1 hmem with hab | hmem2
    · subst hab
      exact availAux_fc_none now rest _ _ (isAvail_clear_self st now a htok hf hcd)
    · have hpres := isAvail_preserve st now b
      refine ih (isAccountAvailable st now b).2 hmem2 ?_ ?_
      · intro v hv
        rcases isAvail_fc_lookup st now b a.accountId with h2 | h2
        · exact hf v (h2 ▸ hv)
        · rw [h2] at hv; cases hv
      · rw [hpres.2.2]; exact hcd

theorem availAux_mem (now : Nat) (a : Account) (htok : a.token ≠ "") :
    ∀ (l : List Account) (st : RotState),
    a ∈ l →
    ((alookup st.failureCounts a.accountId).getD 0 < maxFailures ∨
      cooldownActive now (alookup st.lastUsedTimes a.accountId) = false) →
    a ∈ (getAvailableAccountsAux now l st).1 := by
  intro l
  induction l with
  | nil => intro st h; simp at h
  | cons b rest ih =>
    intro st hmem havail
    simp only [getAvailableAccountsAux]
    rcases List.mem_cons.1 hmem with hab | hmem2
    · subst hab
      have : (isAccountAvailable st now a).1 = true :=
        (isAvail_fst_iff st now a).2 ⟨htok, havail⟩
      simp [this]
    · have hpres := isAvail_preserve st now b
      have hrec : a ∈ (getAvailableAccountsAux now rest (isAccountAvailable st now b).2).1 := by
        refine ih (isAccountAvailable st now b).2 hmem2 ?_
        rcases havail with h | h
        · rcases isAvail_fc_lookup st now b a.accountId with h2 | h2
          · left; rw [h2]; exact h
          · left; rw [h2]; simp [maxFailures]
        · right; rw [hpres.2.2]; exact h
      split <;> simp [hrec]

theorem foldl_least_min (lu : List (String × Nat)) :
    ∀ (l : List Account) (acc : Account),
    (l.foldl (fun least current =>
        if lastUsedVal lu current < lastUsedVal lu least then current else least) acc = acc ∨
      l.foldl (fun least current =>
        if lastUsedVal lu current < lastUsedVal lu least then current else least) acc ∈ l) ∧
    lastUsedVal lu (l.foldl (fun least current =>
        if lastUsedVal lu current < lastUsedVal lu least then current else least) acc) ≤
      lastUsedVal lu acc ∧
    ∀ x ∈ l, lastUsedVal lu (l.foldl (fun least current =>
        if lastUsedVal lu current < lastUsedVal lu least then current else least) acc) ≤
      lastUsedVal lu x := by
  intro l
  induction l with
  | nil => intro acc; simp
  | cons c rest ih =>
    intro acc
    simp only [List.foldl_cons]
    rcases ih (if lastUsedVal lu c < lastUsedVal lu acc then c else acc) with ⟨hm, hle, hall⟩
    have hacc' : lastUsedVal lu (if lastUsedVal lu c < lastUsedVal lu acc then c else acc) ≤
        lastUsedVal lu acc := by
      split <;> omega
    have hc' : lastUsedVal lu (if lastUsedVal lu c < lastUsedVal lu acc then c else acc) ≤
        lastUsedVal lu c := by
      split <;> omega
    refine ⟨?_, hle.trans hacc', ?_⟩
    · rcases hm with hm | hm
      · rw [hm]; split
        · right; exact List.mem_cons_self _ _
        · left; rfl
      · right; exact List.mem_cons_of_mem _ hm
    · intro x hx
      rcases List.mem_cons.1 hx with hx | hx
      · subst hx; exact hle.trans hc'
      · exact hall x hx

theorem selectLeastUsed_spec (lu : List (String × Nat)) (l : List Account)
    (h : l ≠ []) :
    ∃ w, selectLeastUsed lu l = some w ∧ w ∈ l ∧
      ∀ x ∈ l, lastUsedVal lu w ≤ lastUsedVal lu x := by
  cases l with
  | nil => cases h rfl
  | cons a rest =>
    rcases foldl_least_min lu rest a with ⟨hm, hle, hall⟩
    refine ⟨_, rfl, ?_, ?_⟩
    · rcases hm with hm | hm
      · rw [hm]; exact List.mem_cons_self _ _
      · exact List.mem_cons_of_mem _ hm
    · intro x hx
      rcases List.mem_cons.1 hx with hx | hx
      · subst hx; exact hle
      · exact hall x hx

theorem rrGo_spec (now : Nat) :
    ∀ (l : List Account) (lu : List (String × Nat)) (i : Nat),
    (∀ a, l.find? (fun a => a.token ≠ "") = some a →
      (rrGo now l lu i).1 = some a ∧ (rrGo now l lu i).2.1 = aset lu a.accountId now) ∧
    (l.find? (fun a => a.token ≠ "") = none →
      (rrGo now l lu i).1 = none ∧ (rrGo now l lu i).2.1 = lu) := by
  intro l
  induction l with
  | nil => intro lu i; simp [rrGo, List.find?]
  | cons a rest ih =>
    intro lu i
    by_cases htok : a.token ≠ ""
    · constructor
      · intro b hb
        rw [List.find?_cons_of_pos _ (by simpa using htok)] at hb
        cases hb
        simp [rrGo, htok]
      · intro hb
        rw [List.find?_cons_of_pos _ (by simpa using htok)] at hb
        cases hb
    · have htok' : a.token = "" := by simpa using htok
      constructor
      · intro b hb
        rw [List.find?_cons_of_neg _ (by simpa using htok')] at hb
        cases rest with
        | nil => simp [List.find?] at hb
        | cons c rest2 =>
          have := (ih lu (i + 1)).1 b hb
          simpa [rrGo, htok'] using this
      · intro hb
        rw [List.find?_cons_of_neg _ (by simpa using htok')] at hb
        cases rest with
        | nil => simp [rrGo, htok']
        | cons c rest2 =>
          have := (ih lu (i + 1)).2 hb
          simpa [rrGo, htok'] using this

theorem avail_preserve (s : RotState) (now : Nat) :
    (getAvailableAccounts s now).2.accounts = s.accounts ∧
    (getAvailableAccounts s now).2.currentIndex = s.currentIndex ∧
    (getAvailableAccounts s now).2.lastUsedTimes = s.lastUsedTimes :=
  availAux_preserve now s.accounts s

theorem getNextSelected_select (s : RotState) (now : Nat) (w : Account)
    (hne : s.accounts.length ≠ 0)
    (hnonempty : (getAvailableAccounts s now).1 ≠ [])
    (hw : selectLeastUsed (getAvailableAccounts s now).2.lastUsedTimes
      (getAvailableAccounts s now).1 = some w) :
    getNextSelected s now =
      (some w, recordUsage (getAvailableAccounts s now).2 w.accountId now) := by
  have hlen : (getAvailableAccounts s now).1.length ≠ 0 := by
    intro h; exact hnonempty (List.length_eq_zero.mp h)
  simp [getNextSelected, hne, hlen, selectLeastUsedAccount, hw]

theorem statsAux_fc_none (now : Nat) :
    ∀ (l : List Account) (st : RotState) (id : String),
    alookup st.failureCounts id = none →
    alookup (getStatsAux now l st).2.failureCounts id = none := by
  intro l
  induction l with
  | nil => intro st id h; simpa [getStatsAux] using h
  | cons a rest ih =>
    intro st id h
    simp only [getStatsAux]
    exact ih _ _ (isAvail_fc_none st now a id h)

theorem statsAux_lookup_zero (now : Nat) (a : Account) :
    ∀ (l : List Account) (st : RotState), a ∈ l →
    alookup st.failureCounts a.accountId = none →
    ∃ st2, alookup (getStatsAux now l st).1 a.accountId = some st2 ∧
      st2.failures = 0 := by
  intro l
  induction l with
  | nil => intro st h; simp at h
  | cons b rest ih =>
    intro st hmem hnone
    simp only [getStatsAux]
    by_cases hid : b.accountId = a.accountId
    · refine ⟨⟨(alookup st.failureCounts b.accountId).getD 0,
        alookup st.lastUsedTimes b.accountId, (isAccountAvailable st now b).1⟩,
        ?_, ?_⟩
      · simp [alookup, hid]
      · simp [hid, hnone]
    · rcases List.mem_cons.1 hmem with hba | hmem2
      · subst hba; exact absurd rfl hid
      · have hnone2 := isAvail_fc_none st now b a.accountId hnone
        rcases ih (isAccountAvailable st now b).2 hmem2 hnone2 with ⟨st2, hl, hf0⟩
        exact ⟨st2, by simp [alookup, hid, hl], hf0⟩

theorem extractTokenChars_ne_empty :
    ∀ (l : List Char) (t : String), extractTokenChars l = some t → t ≠ "" := by
  intro l
  induction l with
  | nil => intro t h; cases h
  | cons c rest ih =>
    intro t h
    unfold extractTokenChars at h
    split_ifs at h with h1 h2
    · exact ih t h
    · have ht : t = String.mk (((c :: rest).drop 6).takeWhile (fun ch => ch ≠ ';')) :=
        (Option.some.inj h).symm
      intro heq
      have hdata : (((c :: rest).drop 6).takeWhile (fun ch => ch ≠ ';')) = [] := by
        have := congrArg String.data (ht ▸ heq)
        simpa using this
      rw [List.isEmpty_iff] at h2
      exact h2 hdata
    · exact ih t h

theorem extractToken_ne_empty (cookie : String) (t : String)
    (h : extractTokenFromCookie cookie = some t) : t ≠ "" := by
  by_cases h1 : cookie = ""
  · simp [extractTokenFromCookie, h1] at h
  · simp only [extractTokenFromCookie, if_neg h1] at h
    exact extractTokenChars_ne_empty _ t h

theorem validateAccount_spec (d : String → Option JwtClaims) (nowSec : Nat)
    (a : Account) :
    (validateAccount d nowSec a).accountId = a.accountId ∧
    (validateAccount d nowSec a).cookie = a.cookie ∧
    ((validateAccount d nowSec a).token ≠ "" ↔
      ∃ t, extractTokenFromCookie a.cookie = some t ∧
        (validateToken d nowSec t).isSome = true) ∧
    ((validateAccount d nowSec a).token = "" →
      (validateAccount d nowSec a).expires = some 0) ∧
    (∀ t c, extractTokenFromCookie a.cookie = some t →
      validateToken d nowSec t = some c →
      (validateAccount d nowSec a).token = t ∧
      (validateAccount d nowSec a).expires = c.exp) := by
  by_cases hc : a.cookie = ""
  · have he : extractTokenFromCookie a.cookie = none := by
      simp [extractTokenFromCookie, hc]
    have hcne : ¬ a.cookie ≠ "" := by simpa using hc
    simp [validateAccount, hcne, he]
  · rcases he : extractTokenFromCookie a.cookie with _ | t
    · simp [validateAccount, hc, he]
    · rcases hv : validateToken d nowSec t with _ | cl
      · refine ⟨?_, ?_, ?_, ?_, ?_⟩
        · simp [validateAccount, hc, he, hv]
        · simp [validateAccount, hc, he, hv]
        · simp [validateAccount, hc, he, hv]
        · simp [validateAccount, hc, he, hv]
        · intro t2 c2 he2 hv2
          cases he2
          rw [hv] at hv2
          cases hv2
      · have htne := extractToken_ne_empty a.cookie t he
        refine ⟨?_, ?_, ?_, ?_, ?_⟩
        · simp [validateAccount, hc, he, hv]
        · simp [validateAccount, hc, he, hv]
        · simp [validateAccount, hc, he, hv, htne]
        · simp [validateAccount, hc, he, hv, htne]
        · intro t2 c2 he2 hv2
          cases he2
          rw [hv] at hv2
          cases hv2
          simp [validateAccount, hc, he, hv]

theorem alookup_filter {α : Type} (q : String → Bool) (m : List (String × α))
    (id : String) :
    alookup (m.filter (fun p => q p.1)) id =
      if q id = true then alookup m id else none := by
  induction m with
  | nil => simp [alookup]
  | cons p rest ih =>
    by_cases hm : q p.1
    · by_cases hid : p.1 = id
      · subst hid; simp [List.filter_cons, hm, alookup, ih]
      · simp [List.filter_cons, hm, alookup, hid, ih]
    · by_cases hid : p.1 = id
      · subst hid; simp [List.filter_cons, hm, alookup, ih]
      · simp [List.filter_cons, hm, alookup, hid, ih]

theorem filter_idem {α : Type} (p : (String × α) → Bool) (m : List (String × α)) :
    (m.filter p).filter p = m.filter p := by
  induction m with
  | nil => rfl
  | cons q rest ih =>
    by_cases h : p q <;> simp [List.filter_cons, h, ih]

/-
Claim theorems.
-/

/-- C1 (counterexample): the claim asserts that EVERY account whose
failureCount reached maxFailures becomes available again with failureCount
reset once the cooldown has elapsed (here: lastUsedAt never recorded, so the
cooldown is vacuously over), but for an account whose token is empty
_isAccountAvailable returns false before the cooldown logic runs and leaves
failureCount at 3. -/
theorem c1_counterexample :
    (isAccountAvailable ⟨[⟨"a", "ck", "", none⟩], 0, [], [("a", 3)]⟩ 600000
      ⟨"a", "ck", "", none⟩).1 = false ∧
    alookup (isAccountAvailable ⟨[⟨"a", "ck", "", none⟩], 0, [], [("a", 3)]⟩ 600000
      ⟨"a", "ck", "", none⟩).2.failureCounts "a" = some 3 ∧
    maxFailures ≤ 3 := by decide

/-- C1 (amended): for every account WITH A NON-EMPTY TOKEN whose failureCount
reached maxFailures, _isAccountAvailable is false (and the state unchanged)
while now is within cooldownPeriod of the recorded lastUsedAt, and true with
the failure count observed as 0 once the cooldown has elapsed, including when
lastUsedAt was never recorded. -/
theorem c1_cooldown (s : RotState) (now : Nat) (a : Account)
    (htok : a.token ≠ "")
    (hf : maxFailures ≤ (alookup s.failureCounts a.accountId).getD 0) :
    (∀ t, alookup s.lastUsedTimes a.accountId = some t → t ≠ 0 →
      now < t + cooldownPeriod → isAccountAvailable s now a = (false, s)) ∧
    (∀ t, alookup s.lastUsedTimes a.accountId = some t → t ≠ 0 →
      t + cooldownPeriod ≤ now →
      (isAccountAvailable s now a).1 = true ∧
      (alookup (isAccountAvailable s now a).2.failureCounts a.accountId).getD 0 = 0) ∧
    (alookup s.lastUsedTimes a.accountId = none →
      (isAccountAvailable s now a).1 = true ∧
      (alookup (isAccountAvailable s now a).2.failureCounts a.accountId).getD 0 = 0) := by
  have hcp : cooldownPeriod = 300000 := rfl
  refine ⟨?_, ?_, ?_⟩
  · intro t ht htz hlt
    have hca : cooldownActive now (alookup s.lastUsedTimes a.accountId) = true := by
      rw [ht]
      simp only [cooldownActive, decide_eq_true_eq]
      refine ⟨htz, ?_⟩
      rw [hcp]
      rw [hcp] at hlt
      omega
    simp [isAccountAvailable, htok, hf, hca]
  · intro t ht htz hge
    have hca : cooldownActive now (alookup s.lastUsedTimes a.accountId) = false := by
      rw [ht]
      simp only [cooldownActive, decide_eq_false_iff_not, not_and, not_lt]
      intro _
      rw [hcp]
      rw [hcp] at hge
      omega
    constructor
    · simp [isAccountAvailable, htok, hf, hca]
    · simp [isAccountAvailable, htok, hf, hca, alookup_aerase_self]
  · intro hnone
    have hca : cooldownActive now (alookup s.lastUsedTimes a.accountId) = false := by
      rw [hnone]; rfl
    constructor
    · simp [isAccountAvailable, htok, hf, hca]
    · simp [isAccountAvailable, htok, hf, hca, alookup_aerase_self]

/-- C1 (witness): a concrete account with token, failureCount 3 and
lastUsedAt 5 is available again at time 300005 with its count cleared. -/
theorem c1_witness :
    (isAccountAvailable ⟨[⟨"a", "ck", "tk", none⟩], 0, [("a", 5)], [("a", 3)]⟩ 300005
      ⟨"a", "ck", "tk", none⟩).1 = true ∧
    (alookup (isAccountAvailable ⟨[⟨"a", "ck", "tk", none⟩], 0, [("a", 5)], [("a", 3)]⟩ 300005
      ⟨"a", "ck", "tk", none⟩).2.failureCounts "a").getD 0 = 0 :=
  (c1_cooldown ⟨[⟨"a", "ck", "tk", none⟩], 0, [("a", 5)], [("a", 3)]⟩ 300005
    ⟨"a", "ck", "tk", none⟩ (by decide) (by decide)).2.1 5 rfl (by decide) (by decide)

/-- C9: a background flush tick emits no filesystem operation when the dirty
flag is clear; a flush writes the exported image to the temp file first and
renames it over the durable file second, so applying any strict prefix of the
operation list (a crash before the rename) leaves the durable file content
unchanged, while the full sequence installs the new image. -/
theorem c9_flush_atomic (fs : List (String × Nat)) (data : Nat) (k : Nat)
    (hk : k < (saveDatabaseOps data).length) :
    (autoSaveTick false data).1 = [] ∧
    alookup (applyFsOps fs ((saveDatabaseOps data).take k)) dbPath = alookup fs dbPath ∧
    alookup (applyFsOps fs (saveDatabaseOps data)) dbPath = some data := by
  have hne : tmpPath ≠ dbPath := by decide
  have hk2 : k = 0 ∨ k = 1 := by
    simp [saveDatabaseOps] at hk
    omega
  refine ⟨rfl, ?_, ?_⟩
  · rcases hk2 with rfl | rfl
    · rfl
    · show alookup (applyFsOps fs [FsOp.writeFile tmpPath data]) dbPath = alookup fs dbPath
      simp only [applyFsOps, List.foldl, applyFsOp]
      exact alookup_aset_ne fs tmpPath dbPath data hne
  · have h1 : alookup (aset fs tmpPath data) tmpPath = some data :=
      alookup_aset_self fs tmpPath data
    simp only [saveDatabaseOps, applyFsOps, List.foldl, applyFsOp, h1]
    exact alookup_aset_self _ _ _

/-- C9 (witness): with the durable file holding image 7, stopping after the
temp write leaves image 7 in place; the full flush installs image 9. -/
theorem c9_witness :
    (autoSaveTick false 9).1 = [] ∧
    alookup (applyFsOps [("data/qwen2api.db", 7)] ((saveDatabaseOps 9).take 1)) dbPath =
      alookup [("data/qwen2api.db", 7)] dbPath ∧
    alookup (applyFsOps [("data/qwen2api.db", 7)] (saveDatabaseOps 9)) dbPath = some 9 :=
  c9_flush_atomic [("data/qwen2api.db", 7)] 9 1 (by decide)

/-- C10 (counterexample): the claim asserts getStats deletes the failureCount
entry of ANY account whose count reached maxFailures with the cooldown over or
lastUsedAt never recorded, and hence reports failureCount 0 for it; for an
account with an empty token the entry survives and getStats reports 3. -/
theorem c10_counterexample :
    alookup (getStats ⟨[⟨"a", "ck", "", none⟩], 0, [], [("a", 3)]⟩ 5).1.usageStats "a" =
      some ⟨3, none, false⟩ ∧
    alookup (getStats ⟨[⟨"a", "ck", "", none⟩], 0, [], [("a", 3)]⟩ 5).2.failureCounts "a" =
      some 3 ∧
    maxFailures ≤ 3 := by decide

/-- in every branch of a non-empty-list getNextToken call, the final
failureCounts map is the one produced by the availability pass: the
round-robin fallback and recordUsage touch only lastUsedTimes and the
cursor. -/
theorem getNextSelected_fc (s : RotState) (now : Nat)
    (h : s.accounts.length ≠ 0) :
    (getNextSelected s now).2.failureCounts =
      (getAvailableAccounts s now).2.failureCounts := by
  simp only [getNextSelected, h, if_false]
  split_ifs with h2
  · simp [getTokenByRoundRobinSel]
  · rcases hsel : selectLeastUsedAccount (getAvailableAccounts s now).2
      (getAvailableAccounts s now).1 with _ | sel
    · simp [hsel]
    · simp [hsel, recordUsage]

/-- C10 (amended): every call that evaluates availability — getStats,
getNextToken, getTokenByAccountId — deletes the failureCounts entry of any
checked account WITH A NON-EMPTY TOKEN whose failure count reached maxFailures
but whose cooldown has elapsed or whose lastUsedAt was never recorded; in
particular after getStats such an account reports 0 failures in the
per-account stats.  (A token-less account is rejected before the cooldown
logic and keeps its entry.) -/
theorem c10_stats_clear (s : RotState) (now : Nat) (a : Account)
    (ha : a ∈ s.accounts) (htok : a.token ≠ "")
    (hf : maxFailures ≤ (alookup s.failureCounts a.accountId).getD 0)
    (hcd : cooldownActive now (alookup s.lastUsedTimes a.accountId) = false) :
    (∃ st2, alookup (getStats s now).1.usageStats a.accountId = some st2 ∧
      st2.failures = 0) ∧
    alookup (getStats s now).2.failureCounts a.accountId = none ∧
    alookup (getNextToken s now).2.failureCounts a.accountId = none ∧
    (s.accounts.find? (fun x => x.accountId == a.accountId) = some a →
      alookup (getTokenByAccountId s now a.accountId).2.failureCounts a.accountId
        = none) := by
  have hfv : ∀ v, alookup s.failureCounts a.accountId = some v → maxFailures ≤ v := by
    intro v hv
    rw [hv] at hf
    simpa using hf
  have hclear : alookup (getAvailableAccounts s now).2.failureCounts a.accountId = none :=
    availAux_clears now a htok s.accounts s ha hfv hcd
  have hpre := avail_preserve s now
  have hmem2 : a ∈ (getAvailableAccounts s now).2.accounts := by
    rw [hpre.1]; exact ha
  have hlen : s.accounts.length ≠ 0 := by
    intro h0
    rw [List.length_eq_zero] at h0
    rw [h0] at ha
    cases ha
  refine ⟨?_, ?_, ?_, ?_⟩
  · rcases statsAux_lookup_zero now a (getAvailableAccounts s now).2.accounts
      (getAvailableAccounts s now).2 hmem2 hclear with ⟨st2, hl, h0⟩
    exact ⟨st2, by simpa [getStats] using hl, h0⟩
  · have h := statsAux_fc_none now (getAvailableAccounts s now).2.accounts
      (getAvailableAccounts s now).2 a.accountId hclear
    simpa [getStats] using h
  · have hfc : (getNextToken s now).2.failureCounts =
        (getAvailableAccounts s now).2.failureCounts := getNextSelected_fc s now hlen
    rw [hfc]
    exact hclear
  · intro hfind
    have hself := isAvail_clear_self s now a htok hfv hcd
    by_cases hav : (isAccountAvailable s now a).1 = true
    · simpa [getTokenByAccountId, hfind, hav, recordUsage] using hself
    · simpa [getTokenByAccountId, hfind, hav] using hself

/-- C10 (witness): a tokened account with failureCount 3 and no recorded
lastUsedAt is reported with 0 failures after getStats; getStats, getNextToken
and getTokenByAccountId each delete its entry. -/
theorem c10_witness :
    ((∃ st2, alookup (getStats ⟨[⟨"a", "ck", "tk", none⟩], 0, [], [("a", 3)]⟩ 5).1.usageStats
      "a" = some st2 ∧ st2.failures = 0) ∧
    alookup (getStats ⟨[⟨"a", "ck", "tk", none⟩], 0, [], [("a", 3)]⟩ 5).2.failureCounts
      "a" = none) ∧
    alookup (getNextToken ⟨[⟨"a", "ck", "tk", none⟩], 0, [], [("a", 3)]⟩ 5).2.failureCounts
      "a" = none ∧
    alookup (getTokenByAccountId ⟨[⟨"a", "ck", "tk", none⟩], 0, [], [("a", 3)]⟩ 5
      "a").2.failureCounts "a" = none := by
  have h := c10_stats_clear ⟨[⟨"a", "ck", "tk", none⟩], 0, [], [("a", 3)]⟩ 5
    ⟨"a", "ck", "tk", none⟩ (by decide) (by decide) (by decide) rfl
  exact ⟨⟨h.1, h.2.1⟩, h.2.2.1, h.2.2.2 (by decide)⟩

/-- C2 (counterexample): the claim asserts the round-robin fallback returns
none only if NO account anywhere in the list has a usable token, regardless of
the cursor.  Here account "a0" (in cooldown, hence the fallback) has token
"t0", but with the cursor at 1 the scan starts at index 1, never wraps, and
getNextToken returns none. -/
theorem c2_counterexample :
    (getNextToken ⟨[⟨"a0", "c0", "t0", none⟩, ⟨"a1", "c1", "", none⟩], 1,
      [("a0", 1)], [("a0", 3)]⟩ 1).1 = none ∧
    (⟨"a0", "c0", "t0", none⟩ : Account) ∈
      ([⟨"a0", "c0", "t0", none⟩, ⟨"a1", "c1", "", none⟩] : List Account) ∧
    ("t0" : String) ≠ "" := by decide

/-- C2 (amended): when the account list is non-empty and the available subset
is empty, getNextToken falls back to a round-robin scan that starts at the
cursor (reset to 0 only when the cursor is already past the end) and runs to
the END of the list only: it returns the token of the first scanned account
with a non-empty token and records its usage, and it returns none — with no
usage recorded — when every account at or after the scan start lacks a token,
even if an account before the cursor has one. -/
theorem c2_roundrobin (s : RotState) (now : Nat)
    (hne : s.accounts.length ≠ 0)
    (hempty : (getAvailableAccounts s now).1 = []) :
    (∀ a, (s.accounts.drop
        (if s.accounts.length ≤ s.currentIndex then 0 else s.currentIndex)).find?
        (fun a => a.token ≠ "") = some a →
      (getNextToken s now).1 = some a.token ∧
      alookup (getNextToken s now).2.lastUsedTimes a.accountId = some now) ∧
    ((s.accounts.drop
        (if s.accounts.length ≤ s.currentIndex then 0 else s.currentIndex)).find?
        (fun a => a.token ≠ "") = none →
      (getNextToken s now).1 = none ∧
      (getNextToken s now).2.lastUsedTimes = s.lastUsedTimes) := by
  have hpre := avail_preserve s now
  have hlen0 : (getAvailableAccounts s now).1.length = 0 := by rw [hempty]; rfl
  have hsel : getNextSelected s now =
      getTokenByRoundRobinSel (getAvailableAccounts s now).2 now := by
    simp [getNextSelected, hne, hlen0]
  constructor
  · intro a hfind
    have hspec := (rrGo_spec now (s.accounts.drop
        (if s.accounts.length ≤ s.currentIndex then 0 else s.currentIndex))
        s.lastUsedTimes
        (if s.accounts.length ≤ s.currentIndex then 0 else s.currentIndex)).1 a hfind
    constructor
    · simp [getNextToken, hsel, getTokenByRoundRobinSel, hpre.1, hpre.2.1,
        hpre.2.2, hspec.1]
    · simp [getNextToken, hsel, getTokenByRoundRobinSel, hpre.1, hpre.2.1,
        hpre.2.2, hspec.2, alookup_aset_self]
  · intro hfind
    have hspec := (rrGo_spec now (s.accounts.drop
        (if s.accounts.length ≤ s.currentIndex then 0 else s.currentIndex))
        s.lastUsedTimes
        (if s.accounts.length ≤ s.currentIndex then 0 else s.currentIndex)).2 hfind
    constructor
    · simp [getNextToken, hsel, getTokenByRoundRobinSel, hpre.1, hpre.2.1,
        hpre.2.2, hspec.1]
    · simp [getNextToken, hsel, getTokenByRoundRobinSel, hpre.1, hpre.2.1,
        hpre.2.2, hspec.2]

/-- C2 (witness): both accounts unavailable (one tokenless, one in cooldown);
the scan starting at cursor 0 returns the cooldown account's token "t1" and
records its usage. -/
theorem c2_witness :
    (getNextToken ⟨[⟨"a0", "c0", "", none⟩, ⟨"a1", "c1", "t1", none⟩], 0,
      [("a1", 1)], [("a1", 3)]⟩ 1).1 = some ("t1" : String) ∧
    alookup (getNextToken ⟨[⟨"a0", "c0", "", none⟩, ⟨"a1", "c1", "t1", none⟩], 0,
      [("a1", 1)], [("a1", 3)]⟩ 1).2.lastUsedTimes "a1" = some 1 :=
  (c2_roundrobin ⟨[⟨"a0", "c0", "", none⟩, ⟨"a1", "c1", "t1", none⟩], 0,
    [("a1", 1)], [("a1", 3)]⟩ 1 (by decide) (by decide)).1
    ⟨"a1", "c1", "t1", none⟩ (by decide)

/-- C3: on a reload of an existing configuration file, if QWEN_COOKIES is
among the keys whose parsed value differs from the current environment, the
store clear runs and precedes the callback run; if QWEN_COOKIES is not among
the changed keys (including when nothing changed), the store is not cleared. -/
theorem c3_clear_store (content : String) (env : List (String × String)) :
    ((applyEnv (parseEnvFile content) env).2.contains "QWEN_COOKIES" = true →
      (reloadConfig true content env).events =
        [ReloadEvent.clearStore, ReloadEvent.runCallbacks]) ∧
    ((applyEnv (parseEnvFile content) env).2.contains "QWEN_COOKIES" = false →
      ReloadEvent.clearStore ∉ (reloadConfig true content env).events) := by
  constructor
  · intro h
    have hmem : "QWEN_COOKIES" ∈ (applyEnv (parseEnvFile content) env).2 := by
      simpa using h
    have hne : (applyEnv (parseEnvFile content) env).2.length ≠ 0 := by
      intro h0
      rw [List.length_eq_zero] at h0
      rw [h0] at hmem
      cases hmem
    simp [reloadConfig, hne, hmem]
  · intro h
    have hmem : "QWEN_COOKIES" ∉ (applyEnv (parseEnvFile content) env).2 := by
      simpa using h
    by_cases hlen : (applyEnv (parseEnvFile content) env).2.length = 0
    · simp [reloadConfig, hlen]
    · simp [reloadConfig, hlen, hmem]

/-- C3 (witness): changing QWEN_COOKIES clears the store before the callbacks;
changing only an unrelated key does not clear it. -/
theorem c3_witness :
    (reloadConfig true "QWEN_COOKIES=new" [("QWEN_COOKIES", "old")]).events =
      [ReloadEvent.clearStore, ReloadEvent.runCallbacks] ∧
    ReloadEvent.clearStore ∉
      (reloadConfig true "OTHER=new" [("QWEN_COOKIES", "old")]).events :=
  ⟨(c3_clear_store "QWEN_COOKIES=new" [("QWEN_COOKIES", "old")]).1 (by decide),
   (c3_clear_store "OTHER=new" [("QWEN_COOKIES", "old")]).2 (by decide)⟩

/-- C5: addAccount fails — leaving the manager state (memory list, rotator,
store) completely unchanged — when the accountId is already present, when the
cookie yields no token, or when the extracted token fails validation; on
success it appends exactly the new account to memory, upserts its store row,
and re-registers the full list with the rotator. -/
theorem c5_addAccount (st : ManagerState) (d : String → Option JwtClaims)
    (nowSec : Nat) (accountId cookie : String) :
    ((st.accountTokens.find? (fun a => a.accountId == accountId)).isSome = true →
      addAccount st d nowSec accountId cookie = (false, st)) ∧
    ((st.accountTokens.find? (fun a => a.accountId == accountId)).isSome = false →
      extractTokenFromCookie cookie = none →
      addAccount st d nowSec accountId cookie = (false, st)) ∧
    (∀ token, (st.accountTokens.find? (fun a => a.accountId == accountId)).isSome = false →
      extractTokenFromCookie cookie = some token →
      validateToken d nowSec token = none →
      addAccount st d nowSec accountId cookie = (false, st)) ∧
    (∀ token decoded,
      (st.accountTokens.find? (fun a => a.accountId == accountId)).isSome = false →
      extractTokenFromCookie cookie = some token →
      validateToken d nowSec token = some decoded →
      (addAccount st d nowSec accountId cookie).1 = true ∧
      (addAccount st d nowSec accountId cookie).2.accountTokens =
        st.accountTokens ++ [⟨accountId, cookie, token, decoded.exp⟩] ∧
      alookup (addAccount st d nowSec accountId cookie).2.store accountId =
        some ⟨cookie, token, decoded.exp.getD 0, nowSec⟩ ∧
      (addAccount st d nowSec accountId cookie).2.rotator =
        setAccountsList st.rotator
          (st.accountTokens ++ [⟨accountId, cookie, token, decoded.exp⟩])) := by
  refine ⟨?_, ?_, ?_, ?_⟩
  · intro hdup
    simp [addAccount, hdup]
  · intro hdup hext
    simp [addAccount, hdup, hext]
  · intro token hdup hext hval
    simp [addAccount, hdup, hext, hval]
  · intro token decoded hdup hext hval
    refine ⟨?_, ?_, ?_, ?_⟩
    · simp [addAccount, hdup, hext, hval]
    · simp [addAccount, hdup, hext, hval]
    · simp [addAccount, hdup, hext, hval, alookup_aset_self]
    · simp [addAccount, hdup, hext, hval]

/-- C5 (witness): adding account "x" whose cookie decodes to an
already-expired token (exp 5 at time 10) fails and leaves the empty manager
state unchanged. -/
theorem c5_witness :
    addAccount ⟨[], ⟨[], 0, [], []⟩, []⟩
      (fun t => if t = "abc" then some ⟨none, none, some 5⟩ else none)
      10 "x" "token=abc" = (false, ⟨[], ⟨[], 0, [], []⟩, []⟩) :=
  (c5_addAccount ⟨[], ⟨[], 0, [], []⟩, []⟩
    (fun t => if t = "abc" then some ⟨none, none, some 5⟩ else none)
    10 "x" "token=abc").2.2.1 "abc" (by decide) (by decide) (by decide)

/-- C6: setAccounts rejects a non-array argument; on a list it installs the
list, resets currentIndex to 0, keeps the bookkeeping entries of surviving
ids, prunes the entries of ids no longer present, and a second call with the
identical list returns the state unchanged (currentIndex already 0). -/
theorem c6_setAccounts (s : RotState) (l : List Account) :
    (∃ e, setAccounts s none = Except.error e) ∧
    (∀ s1, setAccounts s (some l) = Except.ok s1 →
      s1.accounts = l ∧ s1.currentIndex = 0 ∧
      (∀ id, (l.map (fun a => a.accountId)).contains id = true →
        alookup s1.failureCounts id = alookup s.failureCounts id ∧
        alookup s1.lastUsedTimes id = alookup s.lastUsedTimes id) ∧
      (∀ id, (l.map (fun a => a.accountId)).contains id = false →
        alookup s1.failureCounts id = none ∧
        alookup s1.lastUsedTimes id = none) ∧
      setAccounts s1 (some l) = Except.ok s1) := by
  refine ⟨⟨_, rfl⟩, ?_⟩
  intro s1 h1
  have hs1 : s1 = setAccountsList s l := (Except.ok.inj h1).symm
  subst hs1
  have hfc : (setAccountsList s l).failureCounts =
      s.failureCounts.filter (fun p => ((l.map (fun a => a.accountId)).contains p.1)) := rfl
  have hlu : (setAccountsList s l).lastUsedTimes =
      s.lastUsedTimes.filter (fun p => ((l.map (fun a => a.accountId)).contains p.1)) := rfl
  refine ⟨rfl, rfl, ?_, ?_, ?_⟩
  · intro id hid
    exact ⟨by rw [hfc, alookup_filter, if_pos hid],
           by rw [hlu, alookup_filter, if_pos hid]⟩
  · intro id hid
    have hid' : ¬((l.map (fun a => a.accountId)).contains id = true) := by
      intro hcontra
      rw [hid] at hcontra
      cases hcontra
    exact ⟨by rw [hfc, alookup_filter, if_neg hid'],
           by rw [hlu, alookup_filter, if_neg hid']⟩
  · have h1 := filter_idem
      (fun p => ((l.map (fun a => a.accountId)).contains p.1)) s.failureCounts
    have h2 := filter_idem
      (fun p => ((l.map (fun a => a.accountId)).contains p.1)) s.lastUsedTimes
    simp [setAccounts, setAccountsList, cleanupRecords, h1, h2]

/-- C6 (witness): re-applying setAccounts with the same one-account list is
the identity, and the bookkeeping entry of the vanished id "gone" is pruned. -/
theorem c6_witness :
    setAccounts (setAccountsList ⟨[], 5, [("gone", 7)], [("a", 2)]⟩
        [⟨"a", "c", "t", none⟩]) (some [⟨"a", "c", "t", none⟩]) =
      Except.ok (setAccountsList ⟨[], 5, [("gone", 7)], [("a", 2)]⟩
        [⟨"a", "c", "t", none⟩]) ∧
    alookup (setAccountsList ⟨[], 5, [("gone", 7)], [("a", 2)]⟩
        [⟨"a", "c", "t", none⟩]).lastUsedTimes "gone" = none ∧
    alookup (setAccountsList ⟨[], 5, [("gone", 7)], [("a", 2)]⟩
        [⟨"a", "c", "t", none⟩]).failureCounts "a" = some 2 := by
  have h := (c6_setAccounts ⟨[], 5, [("gone", 7)], [("a", 2)]⟩
    [⟨"a", "c", "t", none⟩]).2 _ rfl
  exact ⟨h.2.2.2.2, (h.2.2.2.1 "gone" (by decide)).2, by
    rw [(h.2.2.1 "a" (by decide)).1]; rfl⟩

/-- C7: deriving an account from the same cookie at the same instant is
stable: any two successful results have the same accountId, and the id is the
deterministic function extractUserIdFromToken of the extracted token. -/
theorem c7_derive_stable (d : String → Option JwtClaims) (nowSec : Nat)
    (cookie : String) (r1 r2 : ExtractedAccount)
    (h1 : extractAccountFromCookie d nowSec cookie = some r1)
    (h2 : extractAccountFromCookie d nowSec cookie = some r2) :
    r1.accountId = r2.accountId ∧
    ∃ token, extractTokenFromCookie cookie = some token ∧
      r1.accountId = extractUserIdFromToken d token ∧ r1.token = token := by
  have h12 : r1 = r2 := by
    rw [h1] at h2
    exact Option.some.inj h2
  refine ⟨by rw [h12], ?_⟩
  rcases he : extractTokenFromCookie cookie with _ | token
  · have hno : extractAccountFromCookie d nowSec cookie = none := by
      simp [extractAccountFromCookie, he]
    rw [hno] at h1; cases h1
  · rcases hv : validateToken d nowSec token with _ | dec
    · have hno : extractAccountFromCookie d nowSec cookie = none := by
        simp [extractAccountFromCookie, he, hv]
      rw [hno] at h1; cases h1
    · have hcalc : extractAccountFromCookie d nowSec cookie =
          some ⟨extractUserIdFromToken d token, token, dec.exp⟩ := by
        simp [extractAccountFromCookie, he, hv]
      rw [hcalc] at h1
      have h1' := Option.some.inj h1
      exact ⟨token, rfl, by rw [← h1'], by rw [← h1']⟩

/-- C7 (witness): the cookie "token=tok1" with a decoder yielding subject
"userA" derives accountId "user_userA" twice. -/
theorem c7_witness :
    ("user_userA" : String) = "user_userA" ∧
    ∃ token, extractTokenFromCookie "token=tok1" = some token ∧
      ("user_userA" : String) =
        extractUserIdFromToken
          (fun t => if t = "tok1" then some ⟨some "userA", none, some 100⟩ else none)
          token ∧
      ("tok1" : String) = token :=
  c7_derive_stable
    (fun t => if t = "tok1" then some ⟨some "userA", none, some 100⟩ else none)
    10 "token=tok1" ⟨"user_userA", "tok1", some 100⟩ ⟨"user_userA", "tok1", some 100⟩
    (by decide) (by decide)

/-- C8: the validation pass keeps every account (same length, same accountId
and cookie at every index) and sets the token field non-empty exactly when
the cookie yielded a token that passed validation; every failing account is
kept with token "" and expires 0, and every passing account carries the
extracted token with its decoded expiry. -/
theorem c8_validation (d : String → Option JwtClaims) (nowSec : Nat)
    (accounts : List Account) :
    (validateAndCleanTokens d nowSec accounts).length = accounts.length ∧
    ∀ (i : Nat) (a : Account), accounts[i]? = some a →
      ∃ a2 : Account, (validateAndCleanTokens d nowSec accounts)[i]? = some a2 ∧
        a2.accountId = a.accountId ∧ a2.cookie = a.cookie ∧
        (a2.token ≠ "" ↔ ∃ t, extractTokenFromCookie a.cookie = some t ∧
          (validateToken d nowSec t).isSome = true) ∧
        (a2.token = "" → a2.expires = some 0) ∧
        (∀ t c, extractTokenFromCookie a.cookie = some t →
          validateToken d nowSec t = some c → a2.token = t ∧ a2.expires = c.exp) := by
  refine ⟨by simp [validateAndCleanTokens], ?_⟩
  intro i a ha
  refine ⟨validateAccount d nowSec a, ?_, ?_⟩
  · simp [validateAndCleanTokens, List.getElem?_map, ha]
  · have h := validateAccount_spec d nowSec a
    exact ⟨h.1, h.2.1, h.2.2.1, h.2.2.2.1, h.2.2.2.2⟩

/-- C8 (witness): an account whose cookie decodes to an expired token (exp 5
at time 10) is kept at its index with token cleared to "" and expires 0. -/
theorem c8_witness :
    ∃ a2 : Account, (validateAndCleanTokens
        (fun t => if t = "abc" then some ⟨none, none, some 5⟩ else none) 10
        [⟨"x", "token=abc", "old", some 99⟩])[0]? = some a2 ∧
      a2.accountId = ("x" : String) ∧ a2.cookie = ("token=abc" : String) ∧
      (a2.token ≠ "" ↔ ∃ t, extractTokenFromCookie "token=abc" = some t ∧
        (validateToken
          (fun t => if t = "abc" then some ⟨none, none, some 5⟩ else none)
          10 t).isSome = true) ∧
      (a2.token = "" → a2.expires = some 0) ∧
      (∀ t c, extractTokenFromCookie "token=abc" = some t →
        validateToken
          (fun t => if t = "abc" then some ⟨none, none, some 5⟩ else none)
          10 t = some c → a2.token = t ∧ a2.expires = c.exp) :=
  (c8_validation (fun t => if t = "abc" then some ⟨none, none, some 5⟩ else none)
    10 [⟨"x", "token=abc", "old", some 99⟩]).2 0 ⟨"x", "token=abc", "old", some 99⟩ rfl

/-- C4: with at least two available accounts with distinct ids and no recorded
lastUsedAt (and a positive clock, as Date.now always is), two consecutive
selections never pick the same account: the first winner gets
lastUsedAt = now1 > 0, so the second least-recently-used selection — whose
minimum is 0 because an untouched unused account remains — picks an account
with a different id, whatever now2 is. -/
theorem c4_no_immediate_repeat (s : RotState) (now1 now2 : Nat) (a b : Account)
    (ha : a ∈ s.accounts) (hb : b ∈ s.accounts)
    (hab : a.accountId ≠ b.accountId)
    (hta : a.token ≠ "") (htb : b.token ≠ "")
    (hua : alookup s.lastUsedTimes a.accountId = none)
    (hub : alookup s.lastUsedTimes b.accountId = none)
    (hpos : 0 < now1) :
    ∃ w1 w2 : Account,
      (getNextSelected s now1).1 = some w1 ∧
      (getNextSelected (getNextSelected s now1).2 now2).1 = some w2 ∧
      w1.accountId ≠ w2.accountId ∧
      (getNextToken s now1).1 = some w1.token ∧
      (getNextToken (getNextToken s now1).2 now2).1 = some w2.token := by
  have hlen : s.accounts.length ≠ 0 := by
    intro h
    rw [List.length_eq_zero] at h
    rw [h] at ha
    cases ha
  have hpre1 := avail_preserve s now1
  have hmemA : a ∈ (getAvailableAccounts s now1).1 :=
    availAux_mem now1 a hta s.accounts s ha (Or.inr (by rw [hua]; rfl))
  have hne1 : (getAvailableAccounts s now1).1 ≠ [] := List.ne_nil_of_mem hmemA
  obtain ⟨w1, hw1, hw1mem, hw1min⟩ := selectLeastUsed_spec
    (getAvailableAccounts s now1).2.lastUsedTimes (getAvailableAccounts s now1).1 hne1
  have hstep1 := getNextSelected_select s now1 w1 hlen hne1 hw1
  have hsAlu : (recordUsage (getAvailableAccounts s now1).2 w1.accountId now1).lastUsedTimes
      = aset s.lastUsedTimes w1.accountId now1 := by
    simp [recordUsage, hpre1.2.2]
  have hsAaccounts :
      (recordUsage (getAvailableAccounts s now1).2 w1.accountId now1).accounts
      = s.accounts := by
    simp [recordUsage, hpre1.1]
  set sA := recordUsage (getAvailableAccounts s now1).2 w1.accountId now1 with hsAdef
  have hkey : ∀ c : Account, c ∈ s.accounts → c.token ≠ "" →
      alookup s.lastUsedTimes c.accountId = none → c.accountId ≠ w1.accountId →
      ∃ w2 : Account, (getNextSelected sA now2).1 = some w2 ∧
        w1.accountId ≠ w2.accountId := by
    intro c hc htc hluc hcne
    have hluc2 : alookup sA.lastUsedTimes c.accountId = none := by
      rw [hsAlu, alookup_aset_ne _ _ _ _ (Ne.symm hcne)]
      exact hluc
    have hmemC : c ∈ (getAvailableAccounts sA now2).1 :=
      availAux_mem now2 c htc sA.accounts sA (by rw [hsAaccounts]; exact hc)
        (Or.inr (by rw [hluc2]; rfl))
    have hne2 : (getAvailableAccounts sA now2).1 ≠ [] := List.ne_nil_of_mem hmemC
    have hlen2 : sA.accounts.length ≠ 0 := by rw [hsAaccounts]; exact hlen
    obtain ⟨w2, hw2, hw2mem, hw2min⟩ := selectLeastUsed_spec
      (getAvailableAccounts sA now2).2.lastUsedTimes (getAvailableAccounts sA now2).1 hne2
    have hstep2 := getNextSelected_select sA now2 w2 hlen2 hne2 hw2
    have hpre2 := avail_preserve sA now2
    have hminC := hw2min c hmemC
    rw [hpre2.2.2] at hminC
    have hlucval : lastUsedVal sA.lastUsedTimes c = 0 := by
      simp [lastUsedVal, hluc2]
    have hw2zero : lastUsedVal sA.lastUsedTimes w2 = 0 := by
      rw [hlucval] at hminC
      omega
    refine ⟨w2, by rw [hstep2], ?_⟩
    intro heq
    have hcontra : lastUsedVal sA.lastUsedTimes w2 = now1 := by
      simp [lastUsedVal, ← heq, hsAlu, alookup_aset_self]
    omega
  have hres : ∃ w2 : Account, (getNextSelected sA now2).1 = some w2 ∧
      w1.accountId ≠ w2.accountId := by
    by_cases hcw : w1.accountId = a.accountId
    · refine hkey b hb htb hub ?_
      rw [hcw]
      exact Ne.symm hab
    · exact hkey a ha hta hua (fun h => hcw h.symm)
  obtain ⟨w2, h2sel, h2ne⟩ := hres
  refine ⟨w1, w2, ?_, ?_, h2ne, ?_, ?_⟩
  · rw [hstep1]
  · have hsnd : (getNextSelected s now1).2 = sA := by rw [hstep1]
    rw [hsnd]
    exact h2sel
  · simp [getNextToken, hstep1]
  · have hsnd : (getNextToken s now1).2 = sA := by simp [getNextToken, hstep1]
    rw [hsnd]
    simp [getNextToken, h2sel]

/-- C4 (witness): two fresh accounts "a" and "b"; the first call picks one,
the second call at time 20 picks the other. -/
theorem c4_witness :
    ∃ w1 w2 : Account,
      (getNextSelected ⟨[⟨"a", "ca", "ta", none⟩, ⟨"b", "cb", "tb", none⟩],
        0, [], []⟩ 10).1 = some w1 ∧
      (getNextSelected (getNextSelected ⟨[⟨"a", "ca", "ta", none⟩,
        ⟨"b", "cb", "tb", none⟩], 0, [], []⟩ 10).2 20).1 = some w2 ∧
      w1.accountId ≠ w2.accountId ∧
      (getNextToken ⟨[⟨"a", "ca", "ta", none⟩, ⟨"b", "cb", "tb", none⟩],
        0, [], []⟩ 10).1 = some w1.token ∧
      (getNextToken (getNextToken ⟨[⟨"a", "ca", "ta", none⟩,
        ⟨"b", "cb", "tb", none⟩], 0, [], []⟩ 10).2 20).1 = some w2.token :=
  c4_no_immediate_repeat ⟨[⟨"a", "ca", "ta", none⟩, ⟨"b", "cb", "tb", none⟩],
    0, [], []⟩ 10 20 ⟨"a", "ca", "ta", none⟩ ⟨"b", "cb", "tb", none⟩
    (by decide) (by decide) (by decide) (by decide) (by decide) rfl rfl (by decide)
